import Mathlib

/-!
# ICMP ping command line tool: a shallow embedding of `ping-cli.go`

The development follows the three parts of the program:

* `parseIP`, the address resolver;
* `ping`, one echo request / echo reply round;
* `commandLineInterface`, which normalises the flags, runs the session loop
  and prints the final statistics.

Modelling conventions.

* Go `time.Duration` is an `int64` count of nanoseconds.  Its values are
  integers of the model and its arithmetic wraps around: the sum of line 106
  and the product of line 136 go through `wrapInt64`.
* The Go `int` counters `i`, `successfulPings` and `totalPings` start at zero
  and grow by one a tick; they are modelled by `Int`.
* Everything the program obtains from the operating system or from a library
  (name resolution, sockets, the clock, the outcome of a probe as seen by the
  loop) is a parameter of the model.
* A run-time panic is an explicit result (`Except.error`, `PingExit.panicked`).
* The loss percentage of lines 119 and 129 is a `float64`; it is not part
  of the model.
-/

namespace PingCLI

/-! ## Constants and basic types -/

/-- Go `time.Duration`: a signed number of nanoseconds, held in an `int64`.
The arithmetic on durations wraps around, see `wrapInt64`. -/
abbrev Duration := Int

/-- The value an `int64` holds after an operation whose exact result is `x`:
the integer congruent to `x` modulo 2^64 that lies in `-2^63 .. 2^63 - 1`. -/
def wrapInt64 (x : Int) : Int :=
  (x + 9223372036854775808) % 18446744073709551616 - 9223372036854775808

/-- Go `time.Millisecond`. -/
def Millisecond : Duration := 1000000

/-- Go `time.Second`. -/
def Second : Duration := 1000 * Millisecond

def ipv4ProtocolNum : Int := 1

def ipv6ProtocolNum : Int := 58

/-- Read deadline of a probe, in seconds. -/
def readDeadline : Int := 2

def defaultBytes : Int := 56

/-- Go `error` values, identified by their message. -/
abbrev GoError := String

/-! ## The session loop of `commandLineInterface` -/

/-- What one call `ping(addr, v4, ttl, bytes)` hands back to the loop:
`success, RTT, err`. -/
structure PingResult where
  success : Bool
  RTT : Duration
  err : Option GoError
deriving DecidableEq, Repr

/-- The local variables of the loop of `commandLineInterface` (lines 94-99).
`calls` is instrumentation: the number of times `ping` has been invoked. -/
structure Session where
  i : Int
  successfulPings : Int
  totalPings : Int
  netRTT : Duration
  maxRTT : Duration
  minRTT : Duration
  calls : Nat
deriving DecidableEq, Repr

/-- The values of the variables when the loop is entered. -/
def Session.init : Session :=
  { i := 0, successfulPings := 0, totalPings := 0,
    netRTT := 0, maxRTT := 0, minRTT := 0, calls := 0 }

/-- The statistics update of a successful probe (lines 105-112). -/
def record (s : Session) (RTT : Duration) : Session :=
  { s with
    successfulPings := s.successfulPings + 1
    netRTT := wrapInt64 (s.netRTT + RTT)
    minRTT := if RTT < s.minRTT ∨ s.minRTT = 0 then RTT else s.minRTT
    maxRTT := if RTT > s.maxRTT then RTT else s.maxRTT }

/-- One iteration of the loop body (lines 103-125), given the result `r` of
its call of `ping`. -/
def tick (s : Session) (r : PingResult) : Session :=
  let s1 := if r.success then record s r.RTT else s
  { s1 with totalPings := s1.totalPings + 1, i := s1.i + 1, calls := s1.calls + 1 }

/-- The state after the loop body ran once for each result of `rs`, in order,
starting from `s`. -/
def ticks (s : Session) (rs : List PingResult) : Session :=
  rs.foldl tick s

/-- The loop `for count == 0 || i < count { ... }` (lines 100-126).  The
result of the `k`-th invocation of `ping` (counting from zero) is `ping k`.
`fuel` bounds the number of times the loop condition is evaluated; `none`
means the loop was still running when the fuel ran out. -/
def loop (count : Int) (ping : Nat → PingResult) : Nat → Session → Option Session
  | 0, _ => none
  | fuel + 1, s =>
    if count = 0 ∨ s.i < count then loop count ping fuel (tick s (ping s.calls))
    else some s

/-- Go integer division: a zero divisor is a run-time panic, otherwise the
quotient is truncated towards zero. -/
def goDiv (a b : Int) : Except String Int :=
  if b = 0 then .error "runtime error: integer divide by zero" else .ok (Int.tdiv a b)

/-- The integer figures of the final statistics (lines 131-136). -/
structure Summary where
  sent : Int
  received : Int
  lost : Int
  minimum : Int
  maximum : Int
  average : Int
deriving DecidableEq, Repr

/-- The final statistics (lines 128-137): the integer arguments of the
`Printf` calls.  The result is an error when evaluating them panics; the
division of line 136 is the only place where that can happen, and the lines
before it have been printed by then. -/
def summary (s : Session) : Except String Summary := do
  let minimum ← goDiv s.minRTT Millisecond
  let maximum ← goDiv s.maxRTT Millisecond
  let average ← goDiv s.netRTT (wrapInt64 (s.successfulPings * Millisecond))
  pure { sent := s.totalPings, received := s.successfulPings,
         lost := s.totalPings - s.successfulPings,
         minimum := minimum, maximum := maximum, average := average }

/-- Sum of the round trip times of the successful probes of `rs`. -/
def successfulRTTSum (rs : List PingResult) : Duration :=
  ((rs.filter (fun r => r.success)).map (fun r => r.RTT)).sum

/-- Number of successful probes of `rs`. -/
def successCount (rs : List PingResult) : Nat :=
  (rs.filter (fun r => r.success)).length

/-! ## Flag normalisation in `commandLineInterface` -/

/-- The settings derived from the flags (lines 78-90). -/
structure Options where
  ttl : Int
  count : Int
  bytes : Int
deriving DecidableEq, Repr

/-- Lines 79-90: `ttlFlag`, `countFlag` and `bytesFlag` are the values of
`ctx.Int("ttl")`, `ctx.Int("count")` and `ctx.Int("packetsize")`. -/
def options (ttlFlag countFlag bytesFlag : Int) : Options :=
  { ttl := if 0 < ttlFlag ∧ ttlFlag < 256 then ttlFlag else 0
    count := if 0 < countFlag then countFlag else 0
    bytes := if 0 < bytesFlag then bytesFlag else 56 }

/-! ## The address resolver `parseIP` -/

/-- Go `net.IP`: the bytes of an address. -/
abbrev IP := List Nat

/-- Go `net.IPAddr`. -/
structure IPAddr where
  IP : IP
  Zone : String
deriving DecidableEq, Repr

/-- The functions of package `net` that `parseIP` calls. -/
structure Net where
  /-- Go `net.ParseIP`: `none` is the nil result for a string that is not a
  literal address. -/
  ParseIP : String → Option IP
  /-- Go `IP.To4`: `none` is the nil result for an address with no 4-byte form. -/
  To4 : IP → Option IP
  /-- Go `net.ResolveIPAddr(network, address)`. -/
  ResolveIPAddr : String → String → Except GoError IPAddr

/-- A run of `parseIP`: its results and the calls of `net.ResolveIPAddr` it
made, in order, each as `(network, address)`.  The results `ip, v4, nil` are
`.ok (ip, v4)` and the results `nil, false, err` are `.error err`. -/
structure ParseIPRun where
  result : Except GoError (IPAddr × Bool)
  resolved : List (String × String)

/-- The function `parseIP` (lines 244-275). -/
def parseIP (net : Net) (addr : String) : ParseIPRun :=
  match net.ParseIP addr with
  | none =>
    match net.ResolveIPAddr "ip6" addr with
    | .ok ip => { result := .ok (ip, false), resolved := [("ip6", addr)] }
    | .error _ =>
      match net.ResolveIPAddr "ip4" addr with
      | .error err => { result := .error err, resolved := [("ip6", addr), ("ip4", addr)] }
      | .ok ip => { result := .ok (ip, true), resolved := [("ip6", addr), ("ip4", addr)] }
  | some parsedAddr =>
    match net.To4 parsedAddr with
    | some _ =>
      match net.ResolveIPAddr "ip4" addr with
      | .error err => { result := .error err, resolved := [("ip4", addr)] }
      | .ok ip => { result := .ok (ip, true), resolved := [("ip4", addr)] }
    | none =>
      match net.ResolveIPAddr "ip6" addr with
      | .error err => { result := .error err, resolved := [("ip6", addr)] }
      | .ok ip => { result := .ok (ip, false), resolved := [("ip6", addr)] }

/-! ## One probe: `ping` -/

/-- Go `icmp.Type`: an interface value, which is a value of `ipv4.ICMPType` or
of `ipv6.ICMPType`.  Two such values are equal when they have the same dynamic
type and the same number. -/
inductive ICMPType where
  | ipv4 (n : Nat)
  | ipv6 (n : Nat)
deriving DecidableEq, Repr

/-- Go `ipv4.ICMPTypeEcho`. -/
def ipv4.ICMPTypeEcho : ICMPType := .ipv4 8

/-- Go `ipv4.ICMPTypeEchoReply`. -/
def ipv4.ICMPTypeEchoReply : ICMPType := .ipv4 0

/-- Go `ipv6.ICMPTypeEchoRequest`. -/
def ipv6.ICMPTypeEchoRequest : ICMPType := .ipv6 128

/-- Go `ipv6.ICMPTypeEchoReply`. -/
def ipv6.ICMPTypeEchoReply : ICMPType := .ipv6 129

/-- Go `icmp.Echo`. -/
structure Echo where
  ID : Int
  Seq : Int
  Data : List Nat
deriving DecidableEq, Repr

/-- Go `icmp.Message` as far as `ping` uses it: the request carries an `Echo`
body, of a reply only the type is read. -/
structure Message where
  /-- Field `Type` of the Go structure. -/
  Typ : ICMPType
  Code : Int
  Body : Option Echo
deriving DecidableEq, Repr

/-- Everything outside the program that one call of `ping` depends on: the
outcome of each socket and library call, the process id and the clock. -/
structure World where
  /-- Go `icmp.ListenPacket(network, address)`: the error, if any. -/
  ListenPacket : String → String → Option GoError
  /-- Go `SetTTL(ttl)` on the IPv4 connection: the error, if any. -/
  SetTTL : Int → Option GoError
  /-- Go `SetHopLimit(ttl)` on the IPv6 connection: the error, if any. -/
  SetHopLimit : Int → Option GoError
  /-- Go `os.Getpid()`. -/
  Getpid : Int
  /-- Go `message.Marshal(nil)`. -/
  Marshal : Message → Except GoError (List Nat)
  /-- Go `c.WriteTo(bin, addr)`: the error, if any. -/
  WriteTo : List Nat → IPAddr → Option GoError
  /-- Go `c.SetReadDeadline`: the error, if any. -/
  SetReadDeadline : Option GoError
  /-- Go `c.ReadFrom`: the datagram received and its sender. -/
  ReadFrom : Except GoError (List Nat × String)
  /-- Go `time.Since(startTime)` when the reply has been read. -/
  Since : Duration
  /-- Parsing of the body of a reply of the given type: the error, if any. -/
  parseBody : ICMPType → List Nat → Option GoError

/-- Library function `icmp.ParseMessage(proto, b)` of golang.org/x/net: a
message shorter than four bytes is rejected, the type of the result is
`ipv4.ICMPType(b[0])` for protocol 1 and `ipv6.ICMPType(b[0])` for protocol
58, any other protocol is rejected, and then the body is parsed. -/
def ParseMessage (w : World) (proto : Int) (b : List Nat) : Except GoError Message :=
  if b.length < 4 then .error "message too short"
  else
    let typ : Option ICMPType :=
      if proto = 1 then some (.ipv4 (b.getD 0 0))
      else if proto = 58 then some (.ipv6 (b.getD 0 0))
      else none
    match typ with
    | none => .error "invalid protocol"
    | some t =>
      match w.parseBody t (b.drop 4) with
      | some err => .error err
      | none => .ok { Typ := t, Code := b.getD 1 0, Body := none }

/-- The calls `ping` makes that reach outside the program, for the record of
a run. -/
inductive Call where
  | ListenPacket (network address : String)
  | SetTTL (ttl : Int)
  | SetHopLimit (ttl : Int)
  | Marshal (m : Message)
  | WriteTo (bin : List Nat) (addr : IPAddr)
  | SetReadDeadline
  | ReadFrom
  | ParseMessage (proto : Int) (b : List Nat)
  | Printf (peer : String) (n : Nat) (ms : Int)
  | Close
deriving DecidableEq, Repr

/-- How a call of `ping` ends: it returns its three results, or it panics. -/
inductive PingExit where
  | returned (r : PingResult)
  | panicked (msg : String)
deriving DecidableEq, Repr

/-- A run of `ping`: how it ended and the calls it made, in order. -/
structure PingRun where
  exit : PingExit
  calls : List Call
deriving DecidableEq, Repr

/-- A failed probe: `return false, 0, err`. -/
def PingRun.fail (err : GoError) (calls : List Call) : PingRun :=
  { exit := .returned { success := false, RTT := 0, err := some err }, calls := calls }

/-- Lines 153-163: the network name of the address family. -/
def network (v4 : Bool) : String := if v4 then "ip4:icmp" else "ip6:ipv6-icmp"

/-- Lines 153-163: the wildcard address of the address family. -/
def listenAddr (v4 : Bool) : String := if v4 then "0.0.0.0" else "::"

/-- Lines 153-163: the Echo Request type of the address family. -/
def messageType (v4 : Bool) : ICMPType :=
  if v4 then ipv4.ICMPTypeEcho else ipv6.ICMPTypeEchoRequest

/-- Lines 153-163: the protocol number of the address family. -/
def protocolNumber (v4 : Bool) : Int := if v4 then ipv4ProtocolNum else ipv6ProtocolNum

/-- Lines 183-189: the echo request, with `bytes` zero bytes of data. -/
def request (w : World) (v4 : Bool) (bytes : Int) : Message :=
  { Typ := messageType v4, Code := 0,
    Body := some { ID := w.Getpid % 65536, Seq := 1, Data := List.replicate bytes.toNat 0 } }

/-- The function `ping` (lines 146-239). -/
def ping (w : World) (addr : IPAddr) (v4 : Bool) (ttl bytes : Int) : PingRun :=
  let t0 := [Call.ListenPacket (network v4) (listenAddr v4)]
  match w.ListenPacket (network v4) (listenAddr v4) with
  | some err => PingRun.fail err t0
  | none =>
    -- lines 174-180: what SetTTL and SetHopLimit return is not looked at
    let t1 := if ttl ≠ 0 then t0 ++ [if v4 then Call.SetTTL ttl else Call.SetHopLimit ttl] else t0
    if bytes < 0 then
      { exit := .panicked "runtime error: makeslice: len out of range", calls := t1 ++ [.Close] }
    else
    let message := request w v4 bytes
    let t2 := t1 ++ [.Marshal message]
    match w.Marshal message with
    | .error err => PingRun.fail err (t2 ++ [.Close])
    | .ok bin =>
      let t3 := t2 ++ [.WriteTo bin addr]
      match w.WriteTo bin addr with
      | some err => PingRun.fail err (t3 ++ [.Close])
      | none =>
        let t4 := t3 ++ [.SetReadDeadline]
        match w.SetReadDeadline with
        | some err => PingRun.fail err (t4 ++ [.Close])
        | none =>
          let t5 := t4 ++ [.ReadFrom]
          match w.ReadFrom with
          | .error err => PingRun.fail err (t5 ++ [.Close])
          | .ok (datagram, peer) =>
            let reply := datagram.take 1500
            let n := reply.length
            let RTT := w.Since
            let t6 := t5 ++ [.ParseMessage (protocolNumber v4) reply]
            match ParseMessage w (protocolNumber v4) reply with
            | .error err => PingRun.fail err (t6 ++ [.Close])
            | .ok repliedMessage =>
              if repliedMessage.Typ = ipv4.ICMPTypeEchoReply
                  ∨ repliedMessage.Typ = ipv6.ICMPTypeEchoReply then
                { exit := .returned { success := true, RTT := RTT, err := none },
                  calls := t6 ++ [.Printf peer n (Int.tdiv RTT Millisecond), .Close] }
              else
                { exit := .returned { success := false, RTT := 0, err := none },
                  calls := t6 ++ [.Close] }

/-- The Echo Reply type of an address family. -/
def echoReplyOf (v4 : Bool) : ICMPType :=
  if v4 then ipv4.ICMPTypeEchoReply else ipv6.ICMPTypeEchoReply

/-- Whether a run made a call that sends the request. -/
def PingRun.sent (r : PingRun) : Bool :=
  r.calls.any (fun c => match c with | .WriteTo _ _ => true | _ => false)

/-! ## `commandLineInterface` as a whole -/

/-- How `commandLineInterface` ends. -/
inductive Exit where
  | usage
  | resolution (err : GoError)
  | panicked (msg : String)
  | finished (s : Session) (stats : Summary)
deriving DecidableEq, Repr

/-- The function `commandLineInterface` (lines 63-138) on the command line
arguments `args` and the three flag values.  `pings k` is what the `k`-th call
`ping(addr, v4, ttl, bytes)` of the loop returns and `fuel` bounds the number
of iterations looked at; `none` means the loop was still running then. -/
def commandLineInterface (net : Net) (args : List String) (ttlFlag countFlag bytesFlag : Int)
    (pings : IPAddr → Bool → Int → Int → Nat → PingResult) (fuel : Nat) : Option Exit :=
  match args with
  | [arg] =>
    match (parseIP net arg).result with
    | .error err => some (.resolution err)
    | .ok (addr, v4) =>
      let o := options ttlFlag countFlag bytesFlag
      match loop o.count (pings addr v4 o.ttl o.bytes) fuel Session.init with
      | none => none
      | some s =>
        match summary s with
        | .error msg => some (.panicked msg)
        | .ok stats => some (.finished s stats)
  | _ => some .usage

/-! ## Concrete inputs used by the examples below -/

/-- A successful probe with the given round trip time. -/
def replied (RTT : Duration) : PingResult := { success := true, RTT := RTT, err := none }

/-- A probe that failed with an error. -/
def failed : PingResult := { success := false, RTT := 0, err := some "operation not permitted" }

/-- The address 192.0.2.1. -/
def sampleAddr : IPAddr := { IP := [192, 0, 2, 1], Zone := "" }

/-- A resolver for which no string is a literal address and every host name
resolves, in both families, to `sampleAddr`. -/
def sampleNet : Net :=
  { ParseIP := fun _ => none
    To4 := fun _ => none
    ResolveIPAddr := fun _ _ => .ok sampleAddr }

/-- A world in which setting the hop limit fails and everything else works:
the reply read is an echo reply (type 0) and arrives after 1.5 ms. -/
def sampleWorld : World :=
  { ListenPacket := fun _ _ => none
    SetTTL := fun _ => some "setsockopt: operation not permitted"
    SetHopLimit := fun _ => some "setsockopt: operation not permitted"
    Getpid := 4242
    Marshal := fun _ => .ok [8, 0, 0, 0, 16, 146, 0, 1]
    WriteTo := fun _ _ => none
    SetReadDeadline := none
    ReadFrom := .ok ([0, 0, 0, 0, 16, 146, 0, 1], "192.0.2.1")
    Since := 1500000
    parseBody := fun _ _ => none }

/-- The relation between the statistics that makes the mean lie between the
extremes: before the first success everything is zero, afterwards
`successfulPings * minRTT ≤ netRTT ≤ successfulPings * maxRTT` with a positive
minimum. -/
def MeanBounds (s : Session) : Prop :=
  (s.successfulPings = 0 ∧ s.minRTT = 0 ∧ s.maxRTT = 0 ∧ s.netRTT = 0) ∨
  (0 < s.successfulPings ∧ 0 < s.minRTT ∧
    s.successfulPings * s.minRTT ≤ s.netRTT ∧ s.netRTT ≤ s.successfulPings * s.maxRTT)

/-! ## The session loop: supporting lemmas -/

theorem ticks_nil (s : Session) : ticks s [] = s := rfl

theorem ticks_cons (s : Session) (r : PingResult) (rs : List PingResult) :
    ticks s (r :: rs) = ticks (tick s r) rs := rfl

theorem ticks_snoc (s : Session) (rs : List PingResult) (r : PingResult) :
    ticks s (rs ++ [r]) = tick (ticks s rs) r := by
  simp [ticks, List.foldl_append]

theorem successCount_cons (r : PingResult) (rs : List PingResult) :
    successCount (r :: rs) = (if r.success then 1 else 0) + successCount rs := by
  cases h : r.success <;> simp [successCount, List.filter_cons, h, Nat.add_comm]

theorem successfulRTTSum_cons (r : PingResult) (rs : List PingResult) :
    successfulRTTSum (r :: rs) = (if r.success then r.RTT else 0) + successfulRTTSum rs := by
  cases h : r.success <;> simp [successfulRTTSum, List.filter_cons, h]

theorem successCount_le_length (rs : List PingResult) : successCount rs ≤ rs.length :=
  List.length_filter_le _ rs

/-- An exact result inside the `int64` range is stored unchanged. -/
theorem wrapInt64_of_inRange (x : Int) (hlo : -9223372036854775808 ≤ x)
    (hhi : x < 9223372036854775808) : wrapInt64 x = x := by
  unfold wrapInt64
  omega

theorem successfulRTTSum_nonneg (rs : List PingResult)
    (hr : ∀ r ∈ rs, r.success = true → 0 ≤ r.RTT) : 0 ≤ successfulRTTSum rs := by
  induction rs with
  | nil => simp [successfulRTTSum]
  | cons r rs ih =>
    rw [successfulRTTSum_cons]
    have h1 := ih (fun x hx => hr x (List.mem_cons_of_mem r hx))
    have h2 := hr r (List.mem_cons_self r rs)
    cases hs : r.success with
    | false => simpa using h1
    | true =>
      have h3 := h2 hs
      simp only [if_true]
      unfold Duration at *
      omega

theorem tick_totalPings (s : Session) (r : PingResult) :
    (tick s r).totalPings = s.totalPings + 1 := by
  cases h : r.success <;> simp [tick, record, h]

theorem tick_i (s : Session) (r : PingResult) : (tick s r).i = s.i + 1 := by
  cases h : r.success <;> simp [tick, record, h]

theorem tick_calls (s : Session) (r : PingResult) : (tick s r).calls = s.calls + 1 := by
  cases h : r.success <;> simp [tick, record, h]

theorem tick_successfulPings (s : Session) (r : PingResult) :
    (tick s r).successfulPings = s.successfulPings + (if r.success then 1 else 0) := by
  cases h : r.success <;> simp [tick, record, h]

theorem tick_netRTT (s : Session) (r : PingResult) :
    (tick s r).netRTT = if r.success then wrapInt64 (s.netRTT + r.RTT) else s.netRTT := by
  cases h : r.success <;> simp [tick, record, h]

theorem tick_minRTT (s : Session) (r : PingResult) :
    (tick s r).minRTT =
      if r.success then (if r.RTT < s.minRTT ∨ s.minRTT = 0 then r.RTT else s.minRTT)
      else s.minRTT := by
  cases h : r.success <;> simp [tick, record, h]

theorem tick_maxRTT (s : Session) (r : PingResult) :
    (tick s r).maxRTT =
      if r.success then (if r.RTT > s.maxRTT then r.RTT else s.maxRTT) else s.maxRTT := by
  cases h : r.success <;> simp [tick, record, h]

theorem ticks_totalPings (rs : List PingResult) (s : Session) :
    (ticks s rs).totalPings = s.totalPings + rs.length := by
  induction rs generalizing s with
  | nil => simp [ticks_nil]
  | cons r rs ih =>
    rw [ticks_cons, ih, tick_totalPings, List.length_cons]
    push_cast
    ring

theorem ticks_i (rs : List PingResult) (s : Session) :
    (ticks s rs).i = s.i + rs.length := by
  induction rs generalizing s with
  | nil => simp [ticks_nil]
  | cons r rs ih =>
    rw [ticks_cons, ih, tick_i, List.length_cons]
    push_cast
    ring

theorem ticks_calls (rs : List PingResult) (s : Session) :
    (ticks s rs).calls = s.calls + rs.length := by
  induction rs generalizing s with
  | nil => simp [ticks_nil]
  | cons r rs ih =>
    rw [ticks_cons, ih, tick_calls, List.length_cons]
    omega

theorem ticks_successfulPings (rs : List PingResult) (s : Session) :
    (ticks s rs).successfulPings = s.successfulPings + successCount rs := by
  induction rs generalizing s with
  | nil => simp [ticks_nil, successCount]
  | cons r rs ih =>
    rw [ticks_cons, ih, tick_successfulPings, successCount_cons]
    cases r.success <;> simp
    ring

/-- The loop with a positive count: when `d` iterations are left the loop
runs the body `d` times, on the results of the next `d` calls of `ping`, and
stops. -/
theorem loop_ticks (count : Int) (ping : Nat → PingResult) (hc : count ≠ 0) :
    ∀ (d fuel : Nat) (s : Session), s.i + d = count → d < fuel →
      loop count ping fuel s = some (ticks s ((List.range' s.calls d).map ping)) := by
  intro d
  induction d with
  | zero =>
    intro fuel s hi hf
    obtain ⟨f, rfl⟩ : ∃ f, fuel = f + 1 := ⟨fuel - 1, by omega⟩
    have hlt : ¬ (count = 0 ∨ s.i < count) := by
      rintro (h | h)
      · exact hc h
      · simp at hi; omega
    simp [loop, hlt, ticks_nil]
  | succ d ih =>
    intro fuel s hi hf
    obtain ⟨f, rfl⟩ : ∃ f, fuel = f + 1 := ⟨fuel - 1, by omega⟩
    have hlt : count = 0 ∨ s.i < count := Or.inr (by push_cast at hi; omega)
    have hstep := ih f (tick s (ping s.calls))
      (by rw [tick_i]; push_cast at hi; omega) (by omega)
    rw [tick_calls] at hstep
    simp only [loop, hlt, if_true, hstep, List.range'_succ, List.map_cons, ticks_cons]

/-- Unrolling: as long as the loop condition holds for the next `k`
iterations, the loop goes through the state reached by running the body on
the results of the next `k` calls of `ping`.  This covers the unbounded loop
(`count = 0`) as well. -/
theorem loop_unroll (count : Int) (ping : Nat → PingResult) :
    ∀ (k fuel : Nat) (s : Session), count = 0 ∨ s.i + k ≤ count →
      loop count ping (fuel + k) s
        = loop count ping fuel (ticks s ((List.range' s.calls k).map ping)) := by
  intro k
  induction k with
  | zero =>
    intro fuel s _
    simp [ticks_nil]
  | succ k ih =>
    intro fuel s h
    have hcond : count = 0 ∨ s.i < count := by
      rcases h with h | h
      · exact Or.inl h
      · exact Or.inr (by push_cast at h; omega)
    have hnext : count = 0 ∨ (tick s (ping s.calls)).i + k ≤ count := by
      rcases h with h | h
      · exact Or.inl h
      · exact Or.inr (by rw [tick_i]; push_cast at h; omega)
    have hstep := ih fuel (tick s (ping s.calls)) hnext
    rw [tick_calls] at hstep
    rw [show fuel + (k + 1) = (fuel + k) + 1 by omega]
    simp only [loop, hcond, if_true, hstep, List.range'_succ, List.map_cons, ticks_cons]

/-- With count zero the loop never ends. -/
theorem loop_unbounded (ping : Nat → PingResult) (fuel : Nat) (s : Session) :
    loop 0 ping fuel s = none := by
  induction fuel generalizing s with
  | zero => rfl
  | succ f ih => simp [loop, ih]

/-! ## The session loop: statistics -/

/-- C5: for every repeat count `n > 0` given by the count flag and every
sequence of probe results, the loop ends (any fuel above `n` is enough) in
the state reached by running the body once on each of the first `n` results
of `ping`, in order; `ping` has then been invoked exactly `n` times and
`totalPings = n`. -/
theorem loop_terminates (n ttlFlag bytesFlag : Int) (hn : 0 < n) (ping : Nat → PingResult)
    (fuel : Nat) (hf : n.toNat < fuel) :
    loop (options ttlFlag n bytesFlag).count ping fuel Session.init
      = some (ticks Session.init ((List.range n.toNat).map ping)) ∧
    (ticks Session.init ((List.range n.toNat).map ping)).calls = n.toNat ∧
    (ticks Session.init ((List.range n.toNat).map ping)).totalPings = n := by
  have hcount : (options ttlFlag n bytesFlag).count = n := by simp [options, hn]
  refine ⟨?_, ?_, ?_⟩
  · rw [hcount, List.range_eq_range']
    have h := loop_ticks n ping (by omega) n.toNat fuel Session.init
      (by simp only [Session.init]; omega) hf
    simpa [Session.init] using h
  · rw [ticks_calls]
    simp [Session.init]
  · rw [ticks_totalPings]
    simp only [Session.init, List.length_map, List.length_range, zero_add]
    omega

/-- Count 3 with three failing probes: the loop ends after three calls. -/
theorem loop_terminates_witness :
    loop (options 0 3 0).count (fun _ => failed) 4 Session.init
      = some (ticks Session.init ((List.range (3 : Int).toNat).map (fun _ => failed))) ∧
    (ticks Session.init ((List.range (3 : Int).toNat).map (fun _ => failed))).calls
      = (3 : Int).toNat ∧
    (ticks Session.init ((List.range (3 : Int).toNat).map (fun _ => failed))).totalPings = 3 :=
  loop_terminates 3 0 0 (by decide) (fun _ => failed) 4 (by decide)

theorem successCount_eq_zero (rs : List PingResult) (h : ∀ r ∈ rs, r.success = false) :
    successCount rs = 0 := by
  simp only [successCount, List.length_eq_zero, List.filter_eq_nil_iff]
  intro r hr
  simp [h r hr]

theorem successCount_eq_length (rs : List PingResult) (h : ∀ r ∈ rs, r.success = true) :
    successCount rs = rs.length := by
  simp only [successCount]
  rw [List.filter_eq_self.2 h]

/-- The counters from which the loss percentage is computed: after the ticks
on `rs`, `successfulPings` is the number of successes and `totalPings` the
number of probes, so `0 ≤ successfulPings ≤ totalPings`; `successfulPings` is
zero when every probe failed and equals `totalPings` when every probe
succeeded. -/
theorem session_counts (rs : List PingResult) :
    (ticks Session.init rs).successfulPings = successCount rs ∧
    (ticks Session.init rs).totalPings = rs.length ∧
    0 ≤ (ticks Session.init rs).successfulPings ∧
    (ticks Session.init rs).successfulPings ≤ (ticks Session.init rs).totalPings ∧
    ((∀ r ∈ rs, r.success = false) → (ticks Session.init rs).successfulPings = 0) ∧
    ((∀ r ∈ rs, r.success = true) →
      (ticks Session.init rs).successfulPings = (ticks Session.init rs).totalPings) := by
  have hs : (ticks Session.init rs).successfulPings = successCount rs := by
    rw [ticks_successfulPings]
    simp [Session.init]
  have ht : (ticks Session.init rs).totalPings = rs.length := by
    rw [ticks_totalPings]
    simp [Session.init]
  have hle := successCount_le_length rs
  refine ⟨hs, ht, ?_, ?_, ?_, ?_⟩
  · rw [hs]
    exact Int.natCast_nonneg _
  · rw [hs, ht]
    exact_mod_cast hle
  · intro h
    rw [hs, successCount_eq_zero rs h]
    rfl
  · intro h
    rw [hs, ht, successCount_eq_length rs h]

/-! ## Flag normalisation -/

/-- C10: for all flag values `t`, `c`, `s` the hop limit is `t` when
`1 ≤ t ≤ 255` and otherwise 0, the count is `c` when `c > 0` and otherwise 0,
the payload size is `s` when `s > 0` and otherwise the default 56; so the hop
limit is within 0..255 and the payload size is positive. -/
theorem options_normalised (t c s : Int) :
    (1 ≤ t ∧ t ≤ 255 → (options t c s).ttl = t) ∧
    (¬ (1 ≤ t ∧ t ≤ 255) → (options t c s).ttl = 0) ∧
    (0 < c → (options t c s).count = c) ∧
    (¬ 0 < c → (options t c s).count = 0) ∧
    (0 < s → (options t c s).bytes = s) ∧
    (¬ 0 < s → (options t c s).bytes = defaultBytes) ∧
    defaultBytes = 56 ∧
    0 ≤ (options t c s).ttl ∧ (options t c s).ttl ≤ 255 ∧
    0 < (options t c s).bytes := by
  simp only [options]
  refine ⟨?_, ?_, ?_, ?_, ?_, ?_, rfl, ?_, ?_, ?_⟩
  · intro h
    rw [if_pos (by omega)]
  · intro h
    rw [if_neg (by omega)]
  · intro h
    rw [if_pos h]
  · intro h
    rw [if_neg h]
  · intro h
    rw [if_pos h]
  · intro h
    rw [if_neg h]
    rfl
  · split_ifs <;> omega
  · split_ifs <;> omega
  · split_ifs <;> omega

/-! ## The session loop: where the statistics go wrong -/

/-- A session in which no probe succeeded has no final statistics: the
average divides by `successfulPings * time.Millisecond`, which is zero. -/
theorem summary_no_reply (rs : List PingResult) (h : ∀ r ∈ rs, r.success = false) :
    summary (ticks Session.init rs) = .error "runtime error: integer divide by zero" := by
  have h0 : (ticks Session.init rs).successfulPings = 0 := by
    rw [ticks_successfulPings, successCount_eq_zero rs h]
    rfl
  simp [summary, goDiv, h0, Millisecond, wrapInt64, bind, Except.bind]

/-- C2, evaluated: with count 1 and a probe that fails, `commandLineInterface`
does not return; it panics on the division that computes the average. -/
theorem all_failed_session_panics :
    commandLineInterface sampleNet ["example.org"] 0 1 0 (fun _ _ _ _ _ => failed) 2
      = some (.panicked "runtime error: integer divide by zero") := by
  rfl

/-- C3, evaluated: two successful probes, of 0 ns and then of 5 ms.  The
session ends with `minRTT` at 5 ms although the mean is 2.5 ms, and the
summary prints minimum 5, average 2, maximum 5. -/
theorem mean_below_minRTT :
    loop 2 (fun k => if k = 0 then replied 0 else replied 5000000) 3 Session.init
      = some (ticks Session.init [replied 0, replied 5000000]) ∧
    (ticks Session.init [replied 0, replied 5000000]).minRTT = 5000000 ∧
    (ticks Session.init [replied 0, replied 5000000]).netRTT = 5000000 ∧
    (ticks Session.init [replied 0, replied 5000000]).successfulPings = 2 ∧
    ¬ ((ticks Session.init [replied 0, replied 5000000]).minRTT
        ≤ Int.tdiv (ticks Session.init [replied 0, replied 5000000]).netRTT
            (ticks Session.init [replied 0, replied 5000000]).successfulPings) ∧
    (summary (ticks Session.init [replied 0, replied 5000000])).map
        (fun x => (x.minimum, x.average, x.maximum)) = .ok (5, 2, 5) := by
  refine ⟨rfl, rfl, rfl, rfl, by decide, rfl⟩

/-- C4, evaluated: after successful probes of 5 ns and 0 ns the minimum is
0 ns and `successfulPings` is 2; a further successful probe of 3 ns raises
`minRTT` to 3 ns. -/
theorem minRTT_increases :
    0 < (ticks Session.init [replied 5, replied 0]).successfulPings ∧
    (ticks Session.init [replied 5, replied 0]).minRTT = 0 ∧
    (tick (ticks Session.init [replied 5, replied 0]) (replied 3)).minRTT = 3 := by
  decide

/-- What does hold of a tick, for a result with a non-negative round trip
time: no counter nor the maximum decreases, the sum does not decrease as
long as it stays inside the `int64` range, and the minimum does not increase
unless it was zero. -/
theorem tick_monotone (s : Session) (r : PingResult) (hr : r.success = true → 0 ≤ r.RTT) :
    s.totalPings ≤ (tick s r).totalPings ∧
    s.successfulPings ≤ (tick s r).successfulPings ∧
    (-9223372036854775808 ≤ s.netRTT → s.netRTT + r.RTT < 9223372036854775808 →
      s.netRTT ≤ (tick s r).netRTT) ∧
    s.maxRTT ≤ (tick s r).maxRTT ∧
    (s.minRTT ≠ 0 → (tick s r).minRTT ≤ s.minRTT) := by
  rw [tick_totalPings, tick_successfulPings, tick_netRTT, tick_maxRTT, tick_minRTT]
  cases hs : r.success with
  | false => simp
  | true =>
    have hr0 := hr hs
    simp only [if_true]
    unfold Duration at *
    refine ⟨by omega, by omega, ?_, ?_, ?_⟩
    · intro hlo hhi
      rw [wrapInt64_of_inRange _ (by omega) hhi]
      omega
    · split_ifs <;> omega
    · intro hne
      split_ifs <;> omega

/-! ## One probe -/

/-- The type of a parsed reply has the dynamic type of the family whose
protocol number was given to the parser. -/
theorem ParseMessage_type (w : World) (v4 : Bool) (b : List Nat) (m : Message)
    (h : ParseMessage w (protocolNumber v4) b = .ok m) :
    m.Typ = if v4 then ICMPType.ipv4 (b.getD 0 0) else ICMPType.ipv6 (b.getD 0 0) := by
  unfold ParseMessage at h
  by_cases hl : b.length < 4
  · simp [hl] at h
  · cases v4 with
    | true =>
      simp only [hl, protocolNumber, ipv4ProtocolNum, if_true, if_false] at h
      cases hb : w.parseBody (.ipv4 (b.getD 0 0)) (b.drop 4) with
      | some err =>
        rw [hb] at h
        exact absurd h (by simp)
      | none =>
        rw [hb] at h
        simp only [Except.ok.injEq] at h
        rw [← h]
        rfl
    | false =>
      simp only [hl, protocolNumber, ipv6ProtocolNum, Bool.false_eq_true, if_true, if_false,
        show ¬ ((58 : Int) = 1) by decide] at h
      cases hb : w.parseBody (.ipv6 (b.getD 0 0)) (b.drop 4) with
      | some err =>
        rw [hb] at h
        exact absurd h (by simp)
      | none =>
        rw [hb] at h
        simp only [Except.ok.injEq] at h
        rw [← h]
        simp

/-- The test of lines 230-237, on a reply parsed for the family of the
target, holds exactly for the Echo Reply type of that family. -/
theorem reply_test_iff (w : World) (v4 : Bool) (b : List Nat) (m : Message)
    (h : ParseMessage w (protocolNumber v4) b = .ok m) :
    (m.Typ = ipv4.ICMPTypeEchoReply ∨ m.Typ = ipv6.ICMPTypeEchoReply)
      ↔ m.Typ = echoReplyOf v4 := by
  have ht := ParseMessage_type w v4 b m h
  cases v4 <;>
    simp [ht, echoReplyOf, ipv4.ICMPTypeEchoReply, ipv6.ICMPTypeEchoReply]

/-- C6: for every probe in which opening the transport, marshalling, sending,
arming the deadline, reading and parsing all succeed, `ping` returns
`true, RTT, nil` if and only if the type of the parsed reply is the Echo Reply
type of the family of the target, and for every other type it returns
`false, 0, nil`. -/
theorem ping_success_iff_echo_reply (w : World) (addr : IPAddr) (v4 : Bool) (ttl bytes : Int)
    (bin datagram : List Nat) (peer : String) (m : Message)
    (hlisten : w.ListenPacket (network v4) (listenAddr v4) = none)
    (hbytes : 0 ≤ bytes)
    (hmarshal : w.Marshal (request w v4 bytes) = .ok bin)
    (hwrite : w.WriteTo bin addr = none)
    (hdeadline : w.SetReadDeadline = none)
    (hread : w.ReadFrom = .ok (datagram, peer))
    (hparse : ParseMessage w (protocolNumber v4) (datagram.take 1500) = .ok m) :
    ((ping w addr v4 ttl bytes).exit
        = .returned { success := true, RTT := w.Since, err := none }
      ↔ m.Typ = echoReplyOf v4) ∧
    (m.Typ ≠ echoReplyOf v4 →
      (ping w addr v4 ttl bytes).exit
        = .returned { success := false, RTT := 0, err := none }) := by
  have htest := reply_test_iff w v4 _ m hparse
  have hnb : ¬ bytes < 0 := by omega
  by_cases hm : m.Typ = echoReplyOf v4
  · have hor := htest.2 hm
    have hexit : (ping w addr v4 ttl bytes).exit
        = .returned { success := true, RTT := w.Since, err := none } := by
      simp [ping, hlisten, hnb, hmarshal, hwrite, hdeadline, hread, hparse, hor]
    exact ⟨⟨fun _ => hm, fun _ => hexit⟩, fun hne => absurd hm hne⟩
  · have hor : ¬ (m.Typ = ipv4.ICMPTypeEchoReply ∨ m.Typ = ipv6.ICMPTypeEchoReply) :=
      fun h => hm (htest.1 h)
    have hexit : (ping w addr v4 ttl bytes).exit
        = .returned { success := false, RTT := 0, err := none } := by
      simp [ping, hlisten, hnb, hmarshal, hwrite, hdeadline, hread, hparse, hor]
    refine ⟨⟨fun h => ?_, fun h => absurd h hm⟩, fun _ => hexit⟩
    rw [hexit] at h
    simp at h

/-- An IPv4 probe whose reply has type 0 succeeds. -/
theorem ping_success_iff_echo_reply_witness :
    ((ping sampleWorld sampleAddr true 0 56).exit
        = .returned { success := true, RTT := sampleWorld.Since, err := none }
      ↔ ICMPType.ipv4 0 = echoReplyOf true) ∧
    (ICMPType.ipv4 0 ≠ echoReplyOf true →
      (ping sampleWorld sampleAddr true 0 56).exit
        = .returned { success := false, RTT := 0, err := none }) :=
  ping_success_iff_echo_reply sampleWorld sampleAddr true 0 56
    [8, 0, 0, 0, 16, 146, 0, 1] [0, 0, 0, 0, 16, 146, 0, 1] "192.0.2.1"
    { Typ := .ipv4 0, Code := 0, Body := none } rfl (by decide) rfl rfl rfl rfl rfl

/-- C8, evaluated: a probe over IPv4 with hop limit 64 in a world where
`SetTTL` fails.  The error is dropped: the request is sent and the probe
returns `true, RTT, nil`. -/
theorem ping_ignores_SetTTL_error :
    sampleWorld.ListenPacket (network true) (listenAddr true) = none ∧
    sampleWorld.SetTTL 64 = some "setsockopt: operation not permitted" ∧
    (ping sampleWorld sampleAddr true 64 56).exit = .returned (replied 1500000) ∧
    (ping sampleWorld sampleAddr true 64 56).sent = true := by
  refine ⟨rfl, rfl, rfl, rfl⟩

/-- No result of `SetTTL` or `SetHopLimit` changes how `ping` ends. -/
theorem ping_exit_independent_of_SetTTL (w : World) (f g : Int → Option GoError)
    (addr : IPAddr) (v4 : Bool) (ttl bytes : Int) :
    (ping { w with SetTTL := f, SetHopLimit := g } addr v4 ttl bytes).exit
      = (ping w addr v4 ttl bytes).exit := by
  simp only [ping, request, ParseMessage]

/-! ## The address resolver -/

/-- C7: for every input that is not a literal address, `parseIP` first
resolves under "ip6" and, when that succeeds, returns that address with
`v4 = false` without a second resolution; only when it fails does it resolve
under "ip4", returning that address with `v4 = true` when that succeeds; it
returns an error exactly when both resolutions fail. -/
theorem parseIP_hostname (net : Net) (addr : String) (h : net.ParseIP addr = none) :
    (∀ ip, net.ResolveIPAddr "ip6" addr = .ok ip →
      (parseIP net addr).result = .ok (ip, false) ∧
      (parseIP net addr).resolved = [("ip6", addr)]) ∧
    (∀ e ip, net.ResolveIPAddr "ip6" addr = .error e → net.ResolveIPAddr "ip4" addr = .ok ip →
      (parseIP net addr).result = .ok (ip, true) ∧
      (parseIP net addr).resolved = [("ip6", addr), ("ip4", addr)]) ∧
    (∀ e e4, net.ResolveIPAddr "ip6" addr = .error e →
      net.ResolveIPAddr "ip4" addr = .error e4 →
      (parseIP net addr).result = .error e4 ∧
      (parseIP net addr).resolved = [("ip6", addr), ("ip4", addr)]) ∧
    ((∃ err, (parseIP net addr).result = .error err) ↔
      (∃ e, net.ResolveIPAddr "ip6" addr = .error e) ∧
      (∃ e4, net.ResolveIPAddr "ip4" addr = .error e4)) := by
  refine ⟨?_, ?_, ?_, ?_⟩
  · intro ip h6
    simp [parseIP, h, h6]
  · intro e ip h6 h4
    simp [parseIP, h, h6, h4]
  · intro e e4 h6 h4
    simp [parseIP, h, h6, h4]
  · cases h6 : net.ResolveIPAddr "ip6" addr with
    | ok ip => simp [parseIP, h, h6]
    | error e =>
      cases h4 : net.ResolveIPAddr "ip4" addr with
      | ok ip => simp [parseIP, h, h6, h4]
      | error e4 => simp [parseIP, h, h6, h4]

/-- A host name that resolves under "ip6". -/
theorem parseIP_hostname_witness :
    (∀ ip, sampleNet.ResolveIPAddr "ip6" "example.org" = .ok ip →
      (parseIP sampleNet "example.org").result = .ok (ip, false) ∧
      (parseIP sampleNet "example.org").resolved = [("ip6", "example.org")]) ∧
    (∀ e ip, sampleNet.ResolveIPAddr "ip6" "example.org" = .error e →
      sampleNet.ResolveIPAddr "ip4" "example.org" = .ok ip →
      (parseIP sampleNet "example.org").result = .ok (ip, true) ∧
      (parseIP sampleNet "example.org").resolved
        = [("ip6", "example.org"), ("ip4", "example.org")]) ∧
    (∀ e e4, sampleNet.ResolveIPAddr "ip6" "example.org" = .error e →
      sampleNet.ResolveIPAddr "ip4" "example.org" = .error e4 →
      (parseIP sampleNet "example.org").result = .error e4 ∧
      (parseIP sampleNet "example.org").resolved
        = [("ip6", "example.org"), ("ip4", "example.org")]) ∧
    ((∃ err, (parseIP sampleNet "example.org").result = .error err) ↔
      (∃ e, sampleNet.ResolveIPAddr "ip6" "example.org" = .error e) ∧
      (∃ e4, sampleNet.ResolveIPAddr "ip4" "example.org" = .error e4)) :=
  parseIP_hostname sampleNet "example.org" rfl

/-! ## The mean lies between the extremes when no round trip time is zero -/

theorem meanBounds_netRTT_nonneg (s : Session) (h : MeanBounds s) : 0 ≤ s.netRTT := by
  unfold MeanBounds at h
  rcases h with ⟨_, _, _, hnet⟩ | ⟨hn, hmin, hlo, _⟩
  · rw [hnet]
  · unfold Duration at *
    have : 0 ≤ s.successfulPings * s.minRTT := by positivity
    omega

theorem tick_meanBounds (s : Session) (r : PingResult) (hr : r.success = true → 0 < r.RTT)
    (hsum : r.success = true → s.netRTT + r.RTT < 9223372036854775808)
    (h : MeanBounds s) : MeanBounds (tick s r) := by
  have hnn := meanBounds_netRTT_nonneg s h
  unfold MeanBounds at *
  rw [tick_successfulPings, tick_netRTT, tick_maxRTT, tick_minRTT]
  cases hs : r.success with
  | false => simpa using h
  | true =>
    have hr0 := hr hs
    have hsum0 := hsum hs
    simp only [if_true]
    unfold Duration at *
    rw [wrapInt64_of_inRange _ (by omega) hsum0]
    right
    rcases h with ⟨hn, hmin, hmax, hnet⟩ | ⟨hn, hmin, hlo, hhi⟩
    · rw [hn, hmin, hmax, hnet]
      simp [hr0]
    · refine ⟨by omega, ?_, ?_, ?_⟩
      · split_ifs <;> omega
      · split_ifs with hc
        · have hle : r.RTT ≤ s.minRTT := by unfold Duration; omega
          nlinarith [mul_le_mul_of_nonneg_left hle (le_of_lt hn)]
        · have hle : s.minRTT ≤ r.RTT := by unfold Duration; omega
          nlinarith
      · split_ifs with hc
        · nlinarith
        · have hle : r.RTT ≤ s.maxRTT := by unfold Duration; omega
          nlinarith

theorem ticks_meanBounds (rs : List PingResult) (s : Session)
    (hr : ∀ r ∈ rs, r.success = true → 0 < r.RTT)
    (hsum : s.netRTT + successfulRTTSum rs < 9223372036854775808)
    (h : MeanBounds s) :
    MeanBounds (ticks s rs) := by
  induction rs generalizing s with
  | nil => exact h
  | cons r rs ih =>
    have hrs : ∀ x ∈ rs, x.success = true → 0 < x.RTT :=
      fun x hx => hr x (List.mem_cons_of_mem r hx)
    have hnn := successfulRTTSum_nonneg rs (fun x hx hs => le_of_lt (hrs x hx hs))
    have hs0 := meanBounds_netRTT_nonneg s h
    have hr0 := hr r (List.mem_cons_self r rs)
    rw [successfulRTTSum_cons] at hsum
    rw [ticks_cons]
    have hstep : (tick s r).netRTT = s.netRTT + (if r.success then r.RTT else 0) := by
      rw [tick_netRTT]
      cases hs : r.success with
      | false => simp
      | true =>
        have hpos := hr0 hs
        simp only [hs, if_true] at hsum ⊢
        unfold Duration at *
        exact wrapInt64_of_inRange _ (by omega) (by omega)
    refine ih (tick s r) hrs ?_ (tick_meanBounds s r hr0 ?_ h)
    · rw [hstep]
      unfold Duration at *
      omega
    · intro hs
      simp only [hs, if_true] at hsum
      unfold Duration at *
      omega

/-- What does hold of the final statistics: in a non-empty session in which
every probe succeeds with a positive round trip time, and in which neither
the sum of the round trip times nor the divisor of line 136 leaves the
`int64` range, the mean computed for the summary lies between `minRTT` and
`maxRTT`, in nanoseconds and in the whole milliseconds printed. -/
theorem mean_between_extremes_of_pos (rs : List PingResult) (hne : rs ≠ [])
    (hr : ∀ r ∈ rs, r.success = true ∧ 0 < r.RTT)
    (hsum : successfulRTTSum rs < 9223372036854775808)
    (hlen : (rs.length : Int) * 1000000 < 9223372036854775808) :
    (ticks Session.init rs).minRTT
      ≤ Int.tdiv (ticks Session.init rs).netRTT (ticks Session.init rs).successfulPings ∧
    Int.tdiv (ticks Session.init rs).netRTT (ticks Session.init rs).successfulPings
      ≤ (ticks Session.init rs).maxRTT ∧
    ∃ stats, summary (ticks Session.init rs) = .ok stats ∧
      stats.minimum ≤ stats.average ∧ stats.average ≤ stats.maximum := by
  have hb := ticks_meanBounds rs Session.init (fun r h _ => (hr r h).2)
    (by simpa [Session.init] using hsum) (Or.inl ⟨rfl, rfl, rfl, rfl⟩)
  have hn : (ticks Session.init rs).successfulPings = rs.length := by
    rw [ticks_successfulPings, successCount_eq_length rs (fun r h => (hr r h).1)]
    simp [Session.init]
  have hpos : 0 < (ticks Session.init rs).successfulPings := by
    rw [hn]
    exact_mod_cast List.length_pos.2 hne
  have hdiv : wrapInt64 ((ticks Session.init rs).successfulPings * 1000000)
      = (ticks Session.init rs).successfulPings * 1000000 := by
    rw [hn] at hpos ⊢
    exact wrapInt64_of_inRange _ (by omega) hlen
  unfold MeanBounds at hb
  generalize ticks Session.init rs = s at *
  rcases hb with ⟨h0, _⟩ | ⟨_, hmin, hlo, hhi⟩
  · omega
  · unfold Duration at *
    have hnet : 0 ≤ s.netRTT := le_trans (by positivity) hlo
    have hmax : 0 ≤ s.maxRTT := by nlinarith
    have hms : (0 : Int) < 1000000 := by decide
    have hnms : 0 < s.successfulPings * 1000000 := by positivity
    rw [Int.tdiv_eq_ediv hnet (le_of_lt hpos)]
    refine ⟨Int.le_ediv_of_mul_le hpos (by linarith [mul_comm s.minRTT s.successfulPings]),
      Int.ediv_le_of_le_mul hpos (by linarith [mul_comm s.maxRTT s.successfulPings]), ?_⟩
    refine ⟨{ sent := s.totalPings, received := s.successfulPings,
              lost := s.totalPings - s.successfulPings,
              minimum := Int.tdiv s.minRTT 1000000, maximum := Int.tdiv s.maxRTT 1000000,
              average := Int.tdiv s.netRTT (s.successfulPings * 1000000) }, ?_, ?_, ?_⟩
    · simp [summary, goDiv, Millisecond, hdiv, bind, Except.bind, pure, Except.pure,
        ne_of_gt hpos]
    · show Int.tdiv s.minRTT 1000000 ≤ Int.tdiv s.netRTT (s.successfulPings * 1000000)
      rw [Int.tdiv_eq_ediv (le_of_lt hmin) (le_of_lt hms),
        Int.tdiv_eq_ediv hnet (le_of_lt hnms)]
      apply Int.le_ediv_of_mul_le hnms
      have h1 : s.minRTT / 1000000 * 1000000 ≤ s.minRTT := Int.ediv_mul_le _ (by decide)
      nlinarith
    · show Int.tdiv s.netRTT (s.successfulPings * 1000000) ≤ Int.tdiv s.maxRTT 1000000
      rw [Int.tdiv_eq_ediv hmax (le_of_lt hms), Int.tdiv_eq_ediv hnet (le_of_lt hnms)]
      apply Int.le_ediv_of_mul_le hms
      have h1 : s.netRTT / (s.successfulPings * 1000000) * (s.successfulPings * 1000000)
          ≤ s.netRTT := Int.ediv_mul_le _ (ne_of_gt hnms)
      have h2 : s.successfulPings * (s.netRTT / (s.successfulPings * 1000000) * 1000000)
          ≤ s.successfulPings * s.maxRTT := by nlinarith
      exact le_of_mul_le_mul_left h2 hpos

end PingCLI
